import Mathlib

/-!
Shallow embedding of `src/index.py` (devkazuto/generate-nft-gif):
the NFT character/collection generation engine — layer selection,
SHA-1 DNA fingerprinting, uniqueness registry, static (PNG) and
animated (GIF) compositing, per-edition retry and the collection
driver — together with theorems settling the specification claims.
-/

set_option maxRecDepth 100000

namespace NftGen

/-! ### SHA-1 (model of Python's `hashlib.sha1(...).hexdigest()`)

All arithmetic is on `Nat`, reduced mod `2^32` where the algorithm
works on 32-bit words. -/

/-- Truncate to a 32-bit word. -/
def w32 (x : Nat) : Nat := x % 4294967296

/-- Left-rotate a 32-bit word by `k` bits. -/
def rotl (k x : Nat) : Nat := w32 ((x <<< k) ||| (x >>> (32 - k)))

/-- UTF-8 encoding of one Unicode code point (model of `str.encode()`). -/
def utf8Encode (c : Nat) : List Nat :=
  if c < 0x80 then [c]
  else if c < 0x800 then
    [0xC0 ||| (c >>> 6), 0x80 ||| (c &&& 0x3F)]
  else if c < 0x10000 then
    [0xE0 ||| (c >>> 12), 0x80 ||| ((c >>> 6) &&& 0x3F), 0x80 ||| (c &&& 0x3F)]
  else
    [0xF0 ||| (c >>> 18), 0x80 ||| ((c >>> 12) &&& 0x3F),
     0x80 ||| ((c >>> 6) &&& 0x3F), 0x80 ||| (c &&& 0x3F)]

/-- Bytes of a string under UTF-8 (model of `str.encode()`). -/
def strBytes (s : String) : List Nat :=
  (s.data.map (fun ch => utf8Encode ch.toNat)).flatten

/-- Big-endian 8-byte encoding of a (64-bit) natural number. -/
def be64 (n : Nat) : List Nat :=
  [(n >>> 56) &&& 255, (n >>> 48) &&& 255, (n >>> 40) &&& 255, (n >>> 32) &&& 255,
   (n >>> 24) &&& 255, (n >>> 16) &&& 255, (n >>> 8) &&& 255, n &&& 255]

/-- SHA-1 padding: append `0x80`, zero bytes to 56 mod 64, then the
bit length as a big-endian 64-bit integer. -/
def sha1Pad (msg : List Nat) : List Nat :=
  let L := msg.length
  let z := (119 - L % 64) % 64
  msg ++ (0x80 :: List.replicate z 0) ++ be64 (8 * L)

/-- Group bytes into big-endian 32-bit words. -/
def bytesToWords : List Nat → List Nat
  | b0 :: b1 :: b2 :: b3 :: rest =>
    ((((b0 <<< 8) ||| b1) <<< 8 ||| b2) <<< 8 ||| b3) :: bytesToWords rest
  | _ => []

/-- One step of the SHA-1 message-schedule extension, on the reversed
word list (head = most recent word). -/
def sha1ExtendStep (r : List Nat) : List Nat :=
  rotl 1 ((r.getD 2 0) ^^^ (r.getD 7 0) ^^^ (r.getD 13 0) ^^^ (r.getD 15 0)) :: r

/-- Extend 16 schedule words to 80. -/
def sha1Extend (blockWords : List Nat) : List Nat :=
  (sha1ExtendStep^[64] blockWords.reverse).reverse

/-- SHA-1 working state: the five 32-bit registers `(a, b, c, d, e)`. -/
abbrev Sha1State := Nat × Nat × Nat × Nat × Nat

/-- One SHA-1 compression round: round index `i` (0..79), schedule word `wi`. -/
def sha1Round (s : Sha1State) (iw : Nat × Nat) : Sha1State :=
  let (a, b, c, d, e) := s
  let i := iw.1
  let wi := iw.2
  let f :=
    if i < 20 then (b &&& c) ||| ((b ^^^ 0xFFFFFFFF) &&& d)
    else if i < 40 then b ^^^ c ^^^ d
    else if i < 60 then (b &&& c) ||| (b &&& d) ||| (c &&& d)
    else b ^^^ c ^^^ d
  let k :=
    if i < 20 then 0x5A827999
    else if i < 40 then 0x6ED9EBA1
    else if i < 60 then 0x8F1BBCDC
    else 0xCA62C1D6
  let temp := w32 (rotl 5 a + f + e + k + wi)
  (temp, a, rotl 30 b, c, d)

/-- Compress one 16-word block into the running hash value. -/
def sha1Block (h : Sha1State) (blockWords : List Nat) : Sha1State :=
  let ws := sha1Extend blockWords
  let (a, b, c, d, e) := ((List.range 80).zip ws).foldl sha1Round h
  let (h0, h1, h2, h3, h4) := h
  (w32 (h0 + a), w32 (h1 + b), w32 (h2 + c), w32 (h3 + d), w32 (h4 + e))

/-- Fold the compression function over successive 16-word blocks
(`fuel` bounds the number of blocks). -/
def sha1Blocks (fuel : Nat) (h : Sha1State) (ws : List Nat) : Sha1State :=
  match fuel, ws with
  | 0, _ => h
  | _, [] => h
  | fuel + 1, ws => sha1Blocks fuel (sha1Block h (ws.take 16)) (ws.drop 16)

/-- Lower-case hex digit. -/
def hexDigit (n : Nat) : Char :=
  if n < 10 then Char.ofNat (48 + n) else Char.ofNat (87 + n)

/-- Eight lower-case hex digits of a 32-bit word. -/
def hex8 (n : Nat) : List Char :=
  [hexDigit ((n >>> 28) &&& 15), hexDigit ((n >>> 24) &&& 15),
   hexDigit ((n >>> 20) &&& 15), hexDigit ((n >>> 16) &&& 15),
   hexDigit ((n >>> 12) &&& 15), hexDigit ((n >>> 8) &&& 15),
   hexDigit ((n >>> 4) &&& 15), hexDigit (n &&& 15)]

/-- SHA-1 hex digest of a byte list. -/
def sha1HexBytes (msg : List Nat) : String :=
  let padded := sha1Pad msg
  let ws := bytesToWords padded
  let (h0, h1, h2, h3, h4) :=
    sha1Blocks (ws.length / 16 + 1)
      (0x67452301, 0xEFCDAB89, 0x98BADCFE, 0x10325476, 0xC3D2E1F0) ws
  String.mk (hex8 h0 ++ hex8 h1 ++ hex8 h2 ++ hex8 h3 ++ hex8 h4)

/-- Model of `hashlib.sha1(s.encode()).hexdigest()`. -/
def sha1Hex (s : String) : String := sha1HexBytes (strBytes s)

example : sha1Hex "abc" = "a9993e364706816aba3e25717850c26c9cd0d89d" := by decide
example : sha1Hex "" = "da39a3ee5e6b4b0d3255bfef95601890afd80709" := by decide

/-! ### Data model

A Python `dict` preserves insertion order; assignment to an existing
key keeps its position.  Selected layers are therefore modelled as an
insertion-ordered association list with a replace-or-append insert. -/

/-- One selected layer file: the dictionary built by `_select_layer_file`
(keys `path`, `type`, `filename`). -/
structure LayerFile where
  path : String
  type : String
  filename : String
deriving DecidableEq

/-- The `selected_layers` dictionary: insertion-ordered map from layer
name to selected file. -/
abbrev Layers := List (String × LayerFile)

/-- Python dict assignment `d[k] = v`: replace in place if the key is
present, else append. -/
def dictInsert {α : Type} (d : List (String × α)) (k : String) (v : α) :
    List (String × α) :=
  match d with
  | [] => [(k, v)]
  | (k', v') :: rest =>
    if k' = k then (k, v) :: rest else (k', v') :: dictInsert rest k v

/-- Python `d.get(k)`. -/
def dictGet {α : Type} (d : List (String × α)) (k : String) : Option α :=
  d.lookup k

/-- Model of `str.lower()` (ASCII lowering — coincides with Python's
on the ASCII filenames and extensions involved). -/
def strLower (s : String) : String := String.mk (s.data.map Char.toLower)

/-- Model of `str.endswith(t)`. -/
def strEndsWith (s t : String) : Bool := t.data.isSuffixOf s.data

/-- Drop the first character (Python `s[1:]`). -/
def strDrop1 (s : String) : String := String.mk (s.data.drop 1)

/-- Model of `s.split('.')[-1]`: the part after the last dot, or the
whole string when there is none. -/
def lastSplitDot (s : String) : String :=
  match ((List.range s.data.length).filter
      (fun i => s.data.getD i ' ' == '.')).getLast? with
  | some i => String.mk (s.data.drop (i + 1))
  | none => s

/-- Index of the splitting dot of `os.path.splitext` applied to a bare
filename: the last dot that has some non-dot character before it. -/
def splitextIdx (s : String) : Option Nat :=
  (((List.range s.data.length).filter (fun i =>
      s.data.getD i ' ' == '.' &&
      (List.range i).any (fun j => s.data.getD j ' ' != '.'))).getLast?)

/-- Model of `os.path.splitext` on a bare filename (no directory part). -/
def splitext (s : String) : String × String :=
  match splitextIdx s with
  | some i => (String.mk (s.data.take i), String.mk (s.data.drop i))
  | none => (s, "")

/-- `_generate_dna_hash`: join `"<name>:<path>"` over the dictionary's
iteration (insertion) order with `|`, then SHA-1. -/
def dnaString (layers : Layers) : String :=
  String.intercalate "|" (layers.map (fun kv => kv.1 ++ ":" ++ kv.2.path))

/-- `_generate_dna_hash(layers)`. -/
def generateDnaHash (layers : Layers) : String :=
  sha1Hex (dnaString layers)

/-- A decoded image file: per-frame sizes, the per-frame `duration`
info values (`[]` when the file carries no duration info), and the
loop-count metadata (`none` when the file specifies none). -/
structure ImageAsset where
  frameSizes : List (Nat × Nat)
  durations : List Nat
  loopInfo : Option Nat
deriving DecidableEq

/-- The filesystem/decoder environment: `listDir` models
`os.path.exists` + `os.listdir` (`none` = directory absent), and
`openImage` models `Image.open` (`none` = unreadable/corrupt file). -/
structure Env where
  listDir : String → Option (List String)
  openImage : String → Option ImageAsset

/-- The configuration fields the generation engine reads. -/
structure Config where
  collectionName : String
  collectionDescription : String
  ipfsBaseUri : String
  compiler : String
  baseLayersDirectory : String
  outputDirectory : String

/-- `_select_layer_file(layer_name)`.  `r` is the randomness oracle for
this call: `random.choice` picks index `r % len(layer_files)` (every
uniform draw is realizable by some `r`). -/
def selectLayerFile (env : Env) (baseDir layerName : String) (r : Nat) :
    Option LayerFile :=
  let layerDir := baseDir ++ "/" ++ layerName
  match env.listDir layerDir with
  | none => none
  | some files =>
    let layerFiles := files.filter (fun f =>
      strEndsWith (strLower f) ".png" || strEndsWith (strLower f) ".gif")
    match layerFiles with
    | [] => none
    | _ :: _ =>
      let selected := layerFiles.getD (r % layerFiles.length) ""
      some { path := layerDir ++ "/" ++ selected,
             type := strDrop1 (strLower (splitext selected).2),
             filename := selected }

/-- The selection loop of `generate_character`: one `_select_layer_file`
call per configured layer, omitting layers with no selection.  `r`
gives the randomness for each layer's call. -/
def selectLayers (env : Env) (baseDir : String) (layersOrder : List String)
    (r : String → Nat) : Layers :=
  layersOrder.foldl (fun acc layer =>
    match selectLayerFile env baseDir layer (r layer) with
    | some f => dictInsert acc layer f
    | none => acc) []

/-! ### Compositing (trace model)

PIL operations are recorded as a term algebra: what was opened,
converted, and pasted (with which mask) in which order.  This captures
the full compositing behaviour — PIL's pixel operations are
deterministic functions of this trace. -/

/-- A PIL image value: a decoded source frame, an RGBA conversion, a
fresh transparent canvas, or the result of a paste (the source uses
`paste(img, (0,0))` for backgrounds and `paste(img, (0,0), img)` —
masked by the pasted image's own alpha — for overlays). -/
inductive Img : Type where
  | asset (path : String) (frame : Nat)
  | convert (i : Img)
  | new (w h : Nat)
  | paste (base src : Img)
  | pasteMasked (base src mask : Img)
deriving DecidableEq

/-- The animated artifact written by `_generate_gif_character`: the
frame list plus the single `duration` and `loop` values passed to
`save`. -/
structure SavedGif where
  frames : List Img
  duration : Nat
  loop : Nat
deriving DecidableEq

/-- An image artifact written to disk. -/
inductive SavedImage : Type where
  | png (image : Img)
  | gif (g : SavedGif)
deriving DecidableEq

/-- The Python exceptions the engine can raise. -/
inductive PyErr : Type where
  | typeError
  | assetReadError (path : String)
  | indexError
  | valueError (msg : String)
deriving DecidableEq

/-- Output path `"<output>/images/<edition>.<ext>"`. -/
def imagesPath (cfg : Config) (edition : Nat) (ext : String) : String :=
  cfg.outputDirectory ++ "/images/" ++ toString edition ++ "." ++ ext

/-- The static-layer loop of `_generate_png_character`: for each
selected layer that is not `Background` and not of type `gif`, open it,
convert to RGBA and paste it (masked by itself) onto the canvas. -/
def pasteStatics (env : Env) (selected : Layers) (base : Img) :
    Except PyErr Img :=
  selected.foldlM (fun acc kv =>
    if kv.1 == "Background" || kv.2.type == "gif" then pure acc
    else
      match env.openImage kv.2.path with
      | none => Except.error (PyErr.assetReadError kv.2.path)
      | some _ =>
        let li := Img.convert (Img.asset kv.2.path 0)
        pure (Img.pasteMasked acc li li)) base

/-- `_generate_png_character(selected_layers, edition)`.  Dereferencing
the absent `Background` entry (`None['path']`) raises `TypeError`. -/
def generatePngCharacter (env : Env) (cfg : Config) (selected : Layers)
    (edition : Nat) : Except PyErr (String × SavedImage) :=
  match dictGet selected "Background" with
  | none => Except.error PyErr.typeError
  | some bg =>
    match env.openImage bg.path with
    | none => Except.error (PyErr.assetReadError bg.path)
    | some asset =>
      let bgImage := Img.convert (Img.asset bg.path 0)
      let sz := asset.frameSizes.getD 0 (0, 0)
      let combined := Img.paste (Img.new sz.1 sz.2) bgImage
      match pasteStatics env selected combined with
      | Except.error e => Except.error e
      | Except.ok final =>
        Except.ok (imagesPath cfg edition "png", SavedImage.png final)

/-- The `static_layers` dictionary built by `_generate_gif_character`:
every selected non-`Background`, non-`gif` layer, opened and converted
to RGBA, keyed by layer name in selection order. -/
def gifStaticLayers (env : Env) (selected : Layers) :
    Except PyErr (List (String × Img)) :=
  selected.foldlM (fun acc kv =>
    if kv.1 == "Background" || kv.2.type == "gif" then pure acc
    else
      match env.openImage kv.2.path with
      | none => Except.error (PyErr.assetReadError kv.2.path)
      | some _ =>
        pure (dictInsert acc kv.1 (Img.convert (Img.asset kv.2.path 0)))) []

/-- Paste the overlay images, in order, onto a base frame (each masked
by its own alpha). -/
def compositeFrame (overlays : List Img) (base : Img) : Img :=
  overlays.foldl (fun c li => Img.pasteMasked c li li) base

/-- `_generate_gif_character(selected_layers, edition)`.  One output
frame per background frame; the artifact is saved with the single
`duration` read from the file object's info after iterating all frames
(the last frame's value, default `100`) and hard-coded `loop=0`. -/
def generateGifCharacter (env : Env) (cfg : Config) (selected : Layers)
    (edition : Nat) : Except PyErr (String × SavedImage) :=
  match dictGet selected "Background" with
  | none => Except.error PyErr.typeError
  | some bg =>
    match env.openImage bg.path with
    | none => Except.error (PyErr.assetReadError bg.path)
    | some asset =>
      match gifStaticLayers env selected with
      | Except.error e => Except.error e
      | Except.ok statics =>
        let overlays := statics.map Prod.snd
        let frames := (List.range asset.frameSizes.length).map (fun i =>
          let fr := Img.convert (Img.asset bg.path i)
          let sz := asset.frameSizes.getD i (0, 0)
          compositeFrame overlays (Img.paste (Img.new sz.1 sz.2) fr))
        match frames with
        | [] => Except.error PyErr.indexError
        | f0 :: rest =>
          Except.ok (imagesPath cfg edition "gif",
            SavedImage.gif { frames := f0 :: rest,
                             duration := asset.durations.getLast?.getD 100,
                             loop := 0 })

/-- The compositing dispatch of `generate_character`:
`background and background['type'] == 'gif'` selects the GIF path,
everything else (including no background — `None` is falsy) the PNG
path. -/
def compositeDispatch (env : Env) (cfg : Config) (selected : Layers)
    (edition : Nat) : Except PyErr (String × SavedImage) :=
  match dictGet selected "Background" with
  | some bg =>
    if bg.type == "gif" then generateGifCharacter env cfg selected edition
    else generatePngCharacter env cfg selected edition
  | none => generatePngCharacter env cfg selected edition

/-! ### Character assembler and collection driver -/

/-- One per-edition metadata record (the dictionary written to
`json/<edition>.json` and returned by `generate_character`). -/
structure Metadata where
  name : String
  description : String
  image : String
  dna : String
  edition : Nat
  date : Nat
  attributes : List (String × String)
  compiler : String
deriving DecidableEq

/-- The `attributes` list comprehension: one `(trait_type, value)` pair
per configured layer present in the selection, in configured order;
`value` is the filename with its extension stripped. -/
def metadataAttributes (layersOrder : List String) (selected : Layers) :
    List (String × String) :=
  layersOrder.filterMap (fun layer =>
    (dictGet selected layer).map (fun f => (layer, (splitext f.filename).1)))

/-- The retry loop of `generate_character`: `attempt` is the current
0-based attempt index, `fuel` the remaining iterations of
`range(max_attempts)`, `reg` the `generated_dnas` registry (most
recent first).  Returns the Python outcome together with the registry
state — registry mutations survive a raised exception.  `rand` gives
the randomness for each (attempt, layer) selection call and `now` the
wall-clock timestamp. -/
def genCharGo (env : Env) (cfg : Config) (layersOrder : List String)
    (edition : Nat) (rand : Nat → String → Nat) (now : Nat)
    (maxAttempts : Nat) :
    Nat → Nat → List String → Except PyErr Metadata × List String
  | _, 0, reg =>
    (Except.error (PyErr.valueError
      ("Could not generate a unique character after " ++
        toString maxAttempts ++ " attempts")), reg)
  | attempt, fuel + 1, reg =>
    let selected :=
      selectLayers env cfg.baseLayersDirectory layersOrder (rand attempt)
    let dna := generateDnaHash selected
    if dna ∈ reg then
      genCharGo env cfg layersOrder edition rand now maxAttempts
        (attempt + 1) fuel reg
    else
      let reg' := dna :: reg
      match compositeDispatch env cfg selected edition with
      | Except.error e => (Except.error e, reg')
      | Except.ok (imagePath, _img) =>
        (Except.ok {
           name := cfg.collectionName ++ " #" ++ toString edition,
           description := cfg.collectionDescription,
           image := cfg.ipfsBaseUri ++ toString edition ++ "." ++
             lastSplitDot imagePath,
           dna := dna,
           edition := edition,
           date := now,
           attributes := metadataAttributes layersOrder selected,
           compiler := cfg.compiler }, reg')

/-- `generate_character(layers_order, edition, max_attempts)` with the
registry state threaded explicitly. -/
def generateCharacter (env : Env) (cfg : Config) (layersOrder : List String)
    (edition : Nat) (maxAttempts : Nat) (rand : Nat → String → Nat)
    (now : Nat) (reg : List String) : Except PyErr Metadata × List String :=
  genCharGo env cfg layersOrder edition rand now maxAttempts 0 maxAttempts reg

/-- The number of selection attempts the retry loop performs (loop
iterations entered), mirroring `genCharGo`. -/
def genCharAttempts (env : Env) (cfg : Config) (layersOrder : List String)
    (rand : Nat → String → Nat) :
    Nat → Nat → List String → Nat
  | _, 0, _ => 0
  | attempt, fuel + 1, reg =>
    let selected :=
      selectLayers env cfg.baseLayersDirectory layersOrder (rand attempt)
    let dna := generateDnaHash selected
    if dna ∈ reg then
      1 + genCharAttempts env cfg layersOrder rand (attempt + 1) fuel reg
    else 1

/-- Attempts performed by `generate_character`. -/
def generateCharacterAttempts (env : Env) (cfg : Config)
    (layersOrder : List String) (maxAttempts : Nat)
    (rand : Nat → String → Nat) (reg : List String) : Nat :=
  genCharAttempts env cfg layersOrder rand 0 maxAttempts reg

/-- The edition loop of `generate_collection` over the remaining
edition numbers: `ValueError` is caught and breaks the loop (returning
the characters generated so far); any other exception propagates.
`rand`/`times` give the randomness and wall-clock oracles per
edition. -/
def genCollGo (env : Env) (cfg : Config) (layersOrder : List String)
    (maxAttempts : Nat) (rand : Nat → Nat → String → Nat)
    (times : Nat → Nat) :
    List Nat → List String → Except PyErr (List Metadata) × List String
  | [], reg => (Except.ok [], reg)
  | e :: rest, reg =>
    match generateCharacter env cfg layersOrder e maxAttempts (rand e)
        (times e) reg with
    | (Except.ok m, reg') =>
      match genCollGo env cfg layersOrder maxAttempts rand times rest reg' with
      | (Except.ok ms, reg'') => (Except.ok (m :: ms), reg'')
      | (Except.error err, reg'') => (Except.error err, reg'')
    | (Except.error (PyErr.valueError _), reg') => (Except.ok [], reg')
    | (Except.error err, reg') => (Except.error err, reg')

/-- `generate_collection()`: editions `1..total` (1-based, inclusive),
starting from the given registry state (`generated_dnas` is empty at
construction). -/
def generateCollection (env : Env) (cfg : Config) (layersOrder : List String)
    (maxAttempts : Nat) (rand : Nat → Nat → String → Nat)
    (times : Nat → Nat) (totalCharacters : Nat) (reg : List String) :
    Except PyErr (List Metadata) × List String :=
  genCollGo env cfg layersOrder maxAttempts rand times
    (List.range' 1 totalCharacters) reg

/-! ### Concrete environments used to instantiate theorems -/

/-- A catalog with two background files (one animated) and two body
files plus an ineligible text file. -/
def sampleEnv : Env :=
  { listDir := fun d =>
      if d = "L/Background" then some ["bg.png", "anim.gif"]
      else if d = "L/Body" then some ["b1.png", "b2.png", "notes.txt"]
      else none,
    openImage := fun p =>
      if p = "L/Background/anim.gif" then
        some ⟨[(2, 2), (2, 2), (2, 2)], [100, 200, 300], some 5⟩
      else if strEndsWith p ".png" then some ⟨[(2, 2)], [], none⟩
      else none }

/-- Matching configuration. -/
def sampleCfg : Config := ⟨"Coll", "desc", "ipfs://x/", "comp", "L", "out"⟩

/-- A catalog with exactly one file per layer: a single possible
combination. -/
def soloEnv : Env :=
  { listDir := fun d =>
      if d = "L/Background" then some ["bg.png"]
      else if d = "L/Body" then some ["b.png"]
      else none,
    openImage := fun p =>
      if strEndsWith p ".png" then some ⟨[(2, 2)], [], none⟩ else none }

/-- A catalog whose background is a five-frame animated GIF with
distinct per-frame durations and loop count 5, plus two static
overlay layers. -/
def gif5Env : Env :=
  { listDir := fun d =>
      if d = "L/Background" then some ["anim.gif"]
      else if d = "L/Body" then some ["body.png"]
      else if d = "L/Eyes" then some ["eyes.png"]
      else none,
    openImage := fun p =>
      if p = "L/Background/anim.gif" then
        some ⟨[(4, 4), (4, 4), (4, 4), (4, 4), (4, 4)],
              [100, 200, 300, 400, 500], some 5⟩
      else if strEndsWith p ".png" then some ⟨[(4, 4)], [], none⟩
      else none }

/-- An empty catalog: no layer directory exists. -/
def trivEnv : Env := { listDir := fun _ => none, openImage := fun _ => none }

/-- Extract the saved animated artifact of a compositing result
(dummy on every other outcome); used to state concrete instances. -/
def gifOf : Except PyErr (String × SavedImage) → SavedGif
  | Except.ok (_, SavedImage.gif g) => g
  | _ => ⟨[], 0, 0⟩

/-! ### Theorems -/

/-- C10: if the selection has no `Background` entry, the static (PNG)
compositing path raises `TypeError` (it dereferences `None['path']`)
instead of returning an image; it returns an image only when a
`Background` selection is present. -/
theorem png_requires_background (env : Env) (cfg : Config)
    (selected : Layers) (edition : Nat) :
    (dictGet selected "Background" = none →
      generatePngCharacter env cfg selected edition =
        Except.error PyErr.typeError) ∧
    (∀ out, generatePngCharacter env cfg selected edition = Except.ok out →
      (dictGet selected "Background").isSome) := by
  constructor
  · intro h
    simp [generatePngCharacter, h]
  · intro out h
    cases hbg : dictGet selected "Background" with
    | none => simp [generatePngCharacter, hbg] at h
    | some bg => simp

/-- Witness for C10 at a concrete input: the empty selection makes the
PNG path raise `TypeError`. -/
theorem png_requires_background_witness :
    generatePngCharacter trivEnv sampleCfg [] 1 =
      Except.error PyErr.typeError :=
  (png_requires_background trivEnv sampleCfg [] 1).1 rfl

/-- C5: the compositing algorithm is chosen solely by the `Background`
selection's type: the animated path runs exactly when a `Background`
selection is present with type `gif`; in every other case — including
no `Background` at all — the static path runs. -/
theorem compositing_dispatch (env : Env) (cfg : Config)
    (selected : Layers) (edition : Nat) :
    ((∃ bg, dictGet selected "Background" = some bg ∧ bg.type = "gif") →
      compositeDispatch env cfg selected edition =
        generateGifCharacter env cfg selected edition) ∧
    ((¬ ∃ bg, dictGet selected "Background" = some bg ∧ bg.type = "gif") →
      compositeDispatch env cfg selected edition =
        generatePngCharacter env cfg selected edition) := by
  constructor
  · rintro ⟨bg, hbg, htype⟩
    simp [compositeDispatch, hbg, htype]
  · intro h
    cases hbg : dictGet selected "Background" with
    | none => simp [compositeDispatch, hbg]
    | some bg =>
      have htype : ¬ bg.type = "gif" := fun ht => h ⟨bg, hbg, ht⟩
      simp [compositeDispatch, hbg, htype]

/-- Witness for C5 at concrete inputs: an animated background selects
the GIF path, and a static background selects the PNG path. -/
theorem compositing_dispatch_witness :
    compositeDispatch sampleEnv sampleCfg
        [("Background", ⟨"L/Background/anim.gif", "gif", "anim.gif"⟩)] 1 =
      generateGifCharacter sampleEnv sampleCfg
        [("Background", ⟨"L/Background/anim.gif", "gif", "anim.gif"⟩)] 1 ∧
    compositeDispatch sampleEnv sampleCfg
        [("Background", ⟨"L/Background/bg.png", "png", "bg.png"⟩)] 1 =
      generatePngCharacter sampleEnv sampleCfg
        [("Background", ⟨"L/Background/bg.png", "png", "bg.png"⟩)] 1 :=
  ⟨(compositing_dispatch sampleEnv sampleCfg _ 1).1 ⟨_, rfl, rfl⟩,
   (compositing_dispatch sampleEnv sampleCfg _ 1).2 (by decide)⟩

/-! ### Dictionary and selection-loop lemmas -/

theorem dictGet_cons {α : Type} (d : List (String × α)) (k' k : String) (v : α) :
    dictGet ((k', v) :: d) k = if k = k' then some v else dictGet d k := by
  by_cases h : k = k'
  · subst h
    simp [dictGet, List.lookup]
  · have hb : (k == k') = false := beq_eq_false_iff_ne.mpr h
    simp [dictGet, List.lookup, hb, h]

theorem dictGet_dictInsert_ne {α : Type} (d : List (String × α))
    (k k' : String) (v : α) (h : k' ≠ k) :
    dictGet (dictInsert d k v) k' = dictGet d k' := by
  induction d with
  | nil => simp [dictInsert, dictGet_cons, h]
  | cons p rest ih =>
    rcases p with ⟨pk, pv⟩
    by_cases hpk : pk = k
    · subst hpk
      simp [dictInsert, dictGet_cons, h]
    · simp [dictInsert, hpk, dictGet_cons]
      by_cases hk' : k' = pk <;> simp [hk', ih]

theorem dictInsert_eq_append {α : Type} (d : List (String × α)) (k : String)
    (v : α) (h : ∀ p ∈ d, p.1 ≠ k) : dictInsert d k v = d ++ [(k, v)] := by
  induction d with
  | nil => rfl
  | cons p rest ih =>
    rcases p with ⟨pk, pv⟩
    have hp : pk ≠ k := h (pk, pv) (by simp)
    simp [dictInsert, hp]
    exact ih (fun q hq => h q (by simp [hq]))

/-- The selection loop, with an arbitrary accumulator and pairwise-new
keys, is an append of a `filterMap` over the layer order. -/
theorem selectLayers_go_eq (env : Env) (base : String) (r : String → Nat) :
    ∀ (order : List String) (acc : Layers), order.Nodup →
      (∀ p ∈ acc, p.1 ∉ order) →
      order.foldl (fun acc layer =>
        match selectLayerFile env base layer (r layer) with
        | some f => dictInsert acc layer f
        | none => acc) acc
      = acc ++ order.filterMap (fun l =>
          (selectLayerFile env base l (r l)).map (fun f => (l, f))) := by
  intro order
  induction order with
  | nil => intro acc _ _; simp
  | cons l rest ih =>
    intro acc hnd hdisj
    have hndr : rest.Nodup := (List.nodup_cons.mp hnd).2
    have hlr : l ∉ rest := (List.nodup_cons.mp hnd).1
    rw [List.foldl_cons]
    cases hsel : selectLayerFile env base l (r l) with
    | none =>
      simp only [hsel]
      rw [ih acc hndr (fun p hp => fun hm => hdisj p hp (by simp [hm]))]
      simp [List.filterMap_cons, hsel]
    | some f =>
      simp only [hsel]
      have hins : dictInsert acc l f = acc ++ [(l, f)] :=
        dictInsert_eq_append acc l f
          (fun p hp => fun he => hdisj p hp (by simp [he]))
      rw [hins, ih (acc ++ [(l, f)]) hndr ?_]
      · simp [List.filterMap_cons, hsel]
      · intro p hp
        rcases List.mem_append.mp hp with h | h
        · exact fun hm => hdisj p h (by simp [hm])
        · simp at h
          subst h
          exact hlr

/-- With a duplicate-free layer order, the selection loop is exactly a
`filterMap` over the configured order. -/
theorem selectLayers_eq_filterMap (env : Env) (base : String)
    (r : String → Nat) (order : List String) (hnd : order.Nodup) :
    selectLayers env base order r
      = order.filterMap (fun l =>
          (selectLayerFile env base l (r l)).map (fun f => (l, f))) := by
  have := selectLayers_go_eq env base r order [] hnd (by simp)
  simpa [selectLayers] using this

theorem dictGet_filterMapSel_not_mem (g : String → Option LayerFile) :
    ∀ (order : List String) (l : String), l ∉ order →
      dictGet (order.filterMap (fun l' => (g l').map (fun f => (l', f)))) l
        = none := by
  intro order
  induction order with
  | nil => intro l _; rfl
  | cons x rest ih =>
    intro l hl
    have hlx : l ≠ x := fun h => hl (by simp [h])
    have hlr : l ∉ rest := fun h => hl (by simp [h])
    cases hg : g x with
    | none => simp [List.filterMap_cons, hg, ih l hlr]
    | some f => simp [List.filterMap_cons, hg, dictGet_cons, hlx, ih l hlr]

theorem dictGet_filterMapSel_mem (g : String → Option LayerFile) :
    ∀ (order : List String) (l : String), order.Nodup → l ∈ order →
      dictGet (order.filterMap (fun l' => (g l').map (fun f => (l', f)))) l
        = g l := by
  intro order
  induction order with
  | nil => intro l _ h; cases h
  | cons x rest ih =>
    intro l hnd hl
    have hndr : rest.Nodup := (List.nodup_cons.mp hnd).2
    have hxr : x ∉ rest := (List.nodup_cons.mp hnd).1
    by_cases hlx : l = x
    · subst hlx
      cases hg : g l with
      | none => simp [List.filterMap_cons, hg,
          dictGet_filterMapSel_not_mem g rest l hxr]
      | some f => simp [List.filterMap_cons, hg, dictGet_cons]
    · have hlr : l ∈ rest := by
        rcases List.mem_cons.mp hl with h | h
        · exact absurd h hlx
        · exact h
      cases hg : g x with
      | none => simp [List.filterMap_cons, hg, ih l hndr hlr]
      | some f => simp [List.filterMap_cons, hg, dictGet_cons, hlx,
          ih l hndr hlr]

/-- Looking a layer up in the selection result recovers exactly the
`_select_layer_file` outcome for that layer (duplicate-free order). -/
theorem dictGet_selectLayers (env : Env) (base : String) (r : String → Nat)
    (order : List String) (l : String) (hnd : order.Nodup) :
    dictGet (selectLayers env base order r) l
      = if l ∈ order then selectLayerFile env base l (r l) else none := by
  rw [selectLayers_eq_filterMap env base r order hnd]
  by_cases hl : l ∈ order
  · rw [dictGet_filterMapSel_mem _ order l hnd hl]
    simp [hl]
  · rw [dictGet_filterMapSel_not_mem _ order l hl]
    simp [hl]

/-- A layer with no selection is never present in the selection result
(no duplicate-freeness needed). -/
theorem selectLayers_omits_go (env : Env) (base : String)
    (r : String → Nat) (l : String)
    (hsel : selectLayerFile env base l (r l) = none) :
    ∀ (order : List String) (acc : Layers), dictGet acc l = none →
      dictGet (order.foldl (fun acc layer =>
        match selectLayerFile env base layer (r layer) with
        | some f => dictInsert acc layer f
        | none => acc) acc) l = none := by
  intro order
  induction order with
  | nil => intro acc h; simpa using h
  | cons x rest ih =>
    intro acc hacc
    rw [List.foldl_cons]
    by_cases hxl : x = l
    · subst hxl
      simp only [hsel]
      exact ih acc hacc
    · cases hsx : selectLayerFile env base x (r x) with
      | none => simp only [hsx]; exact ih acc hacc
      | some f =>
        simp only [hsx]
        exact ih (dictInsert acc x f)
          ((dictGet_dictInsert_ne acc x l f (fun h => hxl h.symm)).trans hacc)

/-- C8: a layer whose directory is absent or holds no eligible file
yields no selection (not an error) and is omitted from the selection;
the metadata attribute list has exactly one `(trait_type, value)` entry
per present layer, in configured layer order. -/
theorem missing_layers_omitted_attributes_ordered
    (env : Env) (base layerName : String) (r : Nat)
    (rOracle : String → Nat) (order : List String) (selected : Layers) :
    (selectLayerFile env base layerName r = none ↔
      (∀ files, env.listDir (base ++ "/" ++ layerName) = some files →
        files.filter (fun f =>
          strEndsWith (strLower f) ".png" || strEndsWith (strLower f) ".gif") = [])) ∧
    (selectLayerFile env base layerName (rOracle layerName) = none →
      dictGet (selectLayers env base order rOracle) layerName = none) ∧
    ((metadataAttributes order selected).map Prod.fst =
      order.filter (fun l => (dictGet selected l).isSome)) := by
  refine ⟨?_, ?_, ?_⟩
  · cases hdir : env.listDir (base ++ "/" ++ layerName) with
    | none =>
      constructor
      · intro _ files hf
        cases hf
      · intro _
        simp [selectLayerFile, hdir]
    | some files =>
      cases hflt : files.filter (fun f =>
          strEndsWith (strLower f) ".png" || strEndsWith (strLower f) ".gif") with
      | nil =>
        constructor
        · intro _ files' hf
          cases hf
          exact hflt
        · intro _
          simp [selectLayerFile, hdir, hflt]
      | cons f fs =>
        constructor
        · intro h
          simp [selectLayerFile, hdir, hflt] at h
        · intro h
          have h2 := h files rfl
          rw [hflt] at h2
          cases h2
  · intro hsel
    exact selectLayers_omits_go env base rOracle layerName hsel order []
      (by rfl)
  · induction order with
    | nil => rfl
    | cons l rest ih =>
      cases hget : dictGet selected l with
      | none => simp [metadataAttributes, List.filterMap_cons, hget,
          List.filter_cons] at ih ⊢; exact ih
      | some f => simp [metadataAttributes, List.filterMap_cons, hget,
          List.filter_cons] at ih ⊢; exact ih

/-- Witness for C8 at the spec's example: order
`[Background, Body, Eyes]` with no `Eyes` directory in `sampleEnv` —
`Eyes` is omitted and the attribute list is exactly
`[Background, Body]`, in that order. -/
theorem missing_layers_omitted_attributes_ordered_witness :
    dictGet (selectLayers sampleEnv "L" ["Background", "Body", "Eyes"]
      (fun _ => 0)) "Eyes" = none ∧
    (metadataAttributes ["Background", "Body", "Eyes"]
      (selectLayers sampleEnv "L" ["Background", "Body", "Eyes"]
        (fun _ => 0))).map Prod.fst = ["Background", "Body"] :=
  ⟨(missing_layers_omitted_attributes_ordered sampleEnv "L" "Eyes" 0
      (fun _ => 0) ["Background", "Body", "Eyes"] []).2.1 (by decide),
   ((missing_layers_omitted_attributes_ordered sampleEnv "L" "Eyes" 0
      (fun _ => 0) ["Background", "Body", "Eyes"]
      (selectLayers sampleEnv "L" ["Background", "Body", "Eyes"]
        (fun _ => 0))).2.2).trans (by decide)⟩

/-! ### Error taxonomy and registry-effect lemmas for the assembler -/

theorem pasteStatics_error_aux (env : Env) :
    ∀ (selected : Layers) (base : Img) (err : PyErr),
      selected.foldlM (fun acc kv =>
        if kv.1 == "Background" || kv.2.type == "gif" then pure acc
        else
          match env.openImage kv.2.path with
          | none => Except.error (PyErr.assetReadError kv.2.path)
          | some _ =>
            let li := Img.convert (Img.asset kv.2.path 0)
            pure (Img.pasteMasked acc li li)) base
        = Except.error err →
      ∃ p, err = PyErr.assetReadError p := by
  intro selected
  induction selected with
  | nil => intro base err h; cases h
  | cons kv rest ih =>
    intro base err h
    simp only [List.foldlM_cons] at h
    by_cases hskip : (kv.1 == "Background" || kv.2.type == "gif") = true
    · rw [if_pos hskip] at h
      exact ih base err h
    · rw [if_neg hskip] at h
      cases hopen : env.openImage kv.2.path with
      | none =>
        rw [hopen] at h
        cases h
        exact ⟨kv.2.path, rfl⟩
      | some a =>
        rw [hopen] at h
        exact ih _ err h

theorem pasteStatics_error (env : Env) (selected : Layers) (base : Img)
    (err : PyErr) (h : pasteStatics env selected base = Except.error err) :
    ∃ p, err = PyErr.assetReadError p :=
  pasteStatics_error_aux env selected base err h

theorem gifStaticLayers_error_aux (env : Env) :
    ∀ (selected : Layers) (acc : List (String × Img)) (err : PyErr),
      selected.foldlM (fun acc kv =>
        if kv.1 == "Background" || kv.2.type == "gif" then pure acc
        else
          match env.openImage kv.2.path with
          | none => Except.error (PyErr.assetReadError kv.2.path)
          | some _ =>
            pure (dictInsert acc kv.1 (Img.convert (Img.asset kv.2.path 0)))) acc
        = Except.error err →
      ∃ p, err = PyErr.assetReadError p := by
  intro selected
  induction selected with
  | nil => intro acc err h; cases h
  | cons kv rest ih =>
    intro acc err h
    simp only [List.foldlM_cons] at h
    by_cases hskip : (kv.1 == "Background" || kv.2.type == "gif") = true
    · rw [if_pos hskip] at h
      exact ih acc err h
    · rw [if_neg hskip] at h
      cases hopen : env.openImage kv.2.path with
      | none =>
        rw [hopen] at h
        cases h
        exact ⟨kv.2.path, rfl⟩
      | some a =>
        rw [hopen] at h
        exact ih _ err h

theorem gifStaticLayers_error (env : Env) (selected : Layers) (err : PyErr)
    (h : gifStaticLayers env selected = Except.error err) :
    ∃ p, err = PyErr.assetReadError p :=
  gifStaticLayers_error_aux env selected [] err h

theorem generatePngCharacter_no_valueError (env : Env) (cfg : Config)
    (selected : Layers) (edition : Nat) (msg : String) :
    generatePngCharacter env cfg selected edition ≠
      Except.error (PyErr.valueError msg) := by
  intro h
  cases hbg : dictGet selected "Background" with
  | none =>
    rw [generatePngCharacter, hbg] at h
    cases h
  | some bg =>
    cases hopen : env.openImage bg.path with
    | none =>
      rw [generatePngCharacter, hbg] at h
      simp only [hopen] at h
      simp at h
    | some asset =>
      simp only [generatePngCharacter, hbg, hopen] at h
      cases hps : pasteStatics env selected
          (Img.paste (Img.new (asset.frameSizes.getD 0 (0, 0)).1
            (asset.frameSizes.getD 0 (0, 0)).2)
            (Img.convert (Img.asset bg.path 0))) with
      | error e =>
        rw [hps] at h
        cases h
        rcases pasteStatics_error env selected _ _ hps with ⟨p, hp⟩
        cases hp
      | ok final => rw [hps] at h; cases h

theorem generateGifCharacter_no_valueError (env : Env) (cfg : Config)
    (selected : Layers) (edition : Nat) (msg : String) :
    generateGifCharacter env cfg selected edition ≠
      Except.error (PyErr.valueError msg) := by
  intro h
  cases hbg : dictGet selected "Background" with
  | none =>
    rw [generateGifCharacter, hbg] at h
    cases h
  | some bg =>
    cases hopen : env.openImage bg.path with
    | none =>
      rw [generateGifCharacter, hbg] at h
      simp only [hopen] at h
      simp at h
    | some asset =>
      simp only [generateGifCharacter, hbg, hopen] at h
      cases hst : gifStaticLayers env selected with
      | error e =>
        rw [hst] at h
        cases h
        rcases gifStaticLayers_error env selected _ hst with ⟨p, hp⟩
        cases hp
      | ok statics =>
        simp only [hst] at h
        cases hfr : (List.range asset.frameSizes.length).map (fun i =>
            compositeFrame (statics.map Prod.snd)
              (Img.paste (Img.new (asset.frameSizes.getD i (0, 0)).1
                (asset.frameSizes.getD i (0, 0)).2)
                (Img.convert (Img.asset bg.path i)))) with
        | nil =>
          rw [hfr] at h
          simp at h
        | cons f0 rest =>
          rw [hfr] at h
          cases h

/-- The compositing dispatch never raises `ValueError`: only the
retry-exhaustion branch of `generate_character` does. -/
theorem compositeDispatch_no_valueError (env : Env) (cfg : Config)
    (selected : Layers) (edition : Nat) (msg : String) :
    compositeDispatch env cfg selected edition ≠
      Except.error (PyErr.valueError msg) := by
  intro h
  rw [compositeDispatch] at h
  cases hbg : dictGet selected "Background" with
  | none =>
    rw [hbg] at h
    exact generatePngCharacter_no_valueError env cfg selected edition msg h
  | some bg =>
    rw [hbg] at h
    have h' : (if (bg.type == "gif") = true then
        generateGifCharacter env cfg selected edition
      else generatePngCharacter env cfg selected edition)
        = Except.error (PyErr.valueError msg) := h
    by_cases ht : (bg.type == "gif") = true
    · rw [if_pos ht] at h'
      exact generateGifCharacter_no_valueError env cfg selected edition msg h'
    · rw [if_neg ht] at h'
      exact generatePngCharacter_no_valueError env cfg selected edition msg h'

/-- A successful `generate_character` call pushes exactly its fresh DNA
onto the registry. -/
theorem genCharGo_ok_registry (env : Env) (cfg : Config)
    (order : List String) (edition : Nat) (rand : Nat → String → Nat)
    (now maxAttempts : Nat) :
    ∀ (fuel attempt : Nat) (reg : List String) (m : Metadata)
      (reg₂ : List String),
      genCharGo env cfg order edition rand now maxAttempts attempt fuel reg
        = (Except.ok m, reg₂) →
      m.dna ∉ reg ∧ reg₂ = m.dna :: reg := by
  intro fuel
  induction fuel with
  | zero => intro attempt reg m reg₂ h; cases h
  | succ fuel ih =>
    intro attempt reg m reg₂ h
    rw [genCharGo] at h
    by_cases hd : generateDnaHash
        (selectLayers env cfg.baseLayersDirectory order (rand attempt)) ∈ reg
    · rw [if_pos hd] at h
      exact ih (attempt + 1) reg m reg₂ h
    · rw [if_neg hd] at h
      cases hc : compositeDispatch env cfg
          (selectLayers env cfg.baseLayersDirectory order (rand attempt))
          edition with
      | error e => rw [hc] at h; cases h
      | ok pi =>
        rcases pi with ⟨imagePath, img⟩
        rw [hc] at h
        cases h
        exact ⟨hd, rfl⟩

/-- The registry only ever grows during `generate_character` (the old
registry is a suffix of the new one). -/
theorem genCharGo_registry_suffix (env : Env) (cfg : Config)
    (order : List String) (edition : Nat) (rand : Nat → String → Nat)
    (now maxAttempts : Nat) :
    ∀ (fuel attempt : Nat) (reg : List String),
      reg <:+ (genCharGo env cfg order edition rand now maxAttempts
        attempt fuel reg).2 := by
  intro fuel
  induction fuel with
  | zero => intro attempt reg; exact List.suffix_refl reg
  | succ fuel ih =>
    intro attempt reg
    rw [genCharGo]
    by_cases hd : generateDnaHash
        (selectLayers env cfg.baseLayersDirectory order (rand attempt)) ∈ reg
    · rw [if_pos hd]
      exact ih (attempt + 1) reg
    · rw [if_neg hd]
      cases hc : compositeDispatch env cfg
          (selectLayers env cfg.baseLayersDirectory order (rand attempt))
          edition with
      | error e => exact List.suffix_cons _ reg
      | ok pi =>
        rcases pi with ⟨imagePath, img⟩
        exact List.suffix_cons _ reg

/-- When `generate_character` raises `ValueError` (retry exhaustion),
the registry is untouched. -/
theorem genCharGo_valueError_registry (env : Env) (cfg : Config)
    (order : List String) (edition : Nat) (rand : Nat → String → Nat)
    (now maxAttempts : Nat) :
    ∀ (fuel attempt : Nat) (reg : List String) (s : String)
      (reg₂ : List String),
      genCharGo env cfg order edition rand now maxAttempts attempt fuel reg
        = (Except.error (PyErr.valueError s), reg₂) →
      reg₂ = reg := by
  intro fuel
  induction fuel with
  | zero => intro attempt reg s reg₂ h; cases h; rfl
  | succ fuel ih =>
    intro attempt reg s reg₂ h
    rw [genCharGo] at h
    by_cases hd : generateDnaHash
        (selectLayers env cfg.baseLayersDirectory order (rand attempt)) ∈ reg
    · rw [if_pos hd] at h
      exact ih (attempt + 1) reg s reg₂ h
    · rw [if_neg hd] at h
      cases hc : compositeDispatch env cfg
          (selectLayers env cfg.baseLayersDirectory order (rand attempt))
          edition with
      | error e =>
        rw [hc] at h
        cases h
        exact absurd hc (compositeDispatch_no_valueError env cfg _ edition s)
      | ok pi =>
        rcases pi with ⟨imagePath, img⟩
        rw [hc] at h
        cases h

/-- A catalog with one background file whose image data is unreadable:
every `Image.open` fails. -/
def brokenEnv : Env :=
  { listDir := fun d => if d = "L/Background" then some ["bg.png"] else none,
    openImage := fun _ => none }

/-- C9: an attempt whose DNA is not yet registered inserts the DNA
before compositing; if compositing then raises, the registry still
contains the DNA (no rollback), and a combination whose DNA is in the
registry can never be returned by a later `generate_character` call in
the same run. -/
theorem dna_inserted_before_compositing (env : Env) (cfg : Config)
    (order : List String) (edition : Nat) (rand : Nat → String → Nat)
    (now maxAttempts attempt fuel : Nat) (reg : List String) (e : PyErr)
    (d : String) :
    (generateDnaHash
        (selectLayers env cfg.baseLayersDirectory order (rand attempt)) ∉ reg →
      compositeDispatch env cfg
        (selectLayers env cfg.baseLayersDirectory order (rand attempt)) edition
        = Except.error e →
      genCharGo env cfg order edition rand now maxAttempts attempt (fuel + 1) reg
        = (Except.error e,
           generateDnaHash
             (selectLayers env cfg.baseLayersDirectory order (rand attempt))
             :: reg)) ∧
    (d ∈ reg →
      ∀ (m : Metadata) (reg₂ : List String),
        generateCharacter env cfg order edition maxAttempts rand now reg
          = (Except.ok m, reg₂) → m.dna ≠ d) := by
  constructor
  · intro hd hc
    rw [genCharGo]
    rw [if_neg hd, hc]
  · intro hd m reg₂ hchar hdna
    rw [generateCharacter] at hchar
    have hfresh :=
      (genCharGo_ok_registry env cfg order edition rand now maxAttempts
        maxAttempts 0 reg m reg₂ hchar).1
    exact hfresh (hdna ▸ hd)

/-- Witness for C9 at a concrete input: one eligible background file
whose image data cannot be decoded — the attempt's DNA ends up in the
registry even though compositing raised. -/
theorem dna_inserted_before_compositing_witness :
    genCharGo brokenEnv sampleCfg ["Background"] 1 (fun _ _ => 0) 0 5 0 5 []
      = (Except.error (PyErr.assetReadError "L/Background/bg.png"),
         [generateDnaHash (selectLayers brokenEnv sampleCfg.baseLayersDirectory
            ["Background"] ((fun _ _ => 0) 0))]) :=
  (dna_inserted_before_compositing brokenEnv sampleCfg ["Background"] 1
      (fun _ _ => 0) 0 5 0 4 [] (PyErr.assetReadError "L/Background/bg.png")
      "").1 (by simp) (by rfl)

/-- Exhausting all attempts: if every attempt in the window collides
with the registry, the loop errors with the `ValueError` naming
`max_attempts`, leaves the registry unchanged, and performs exactly
`fuel` selection attempts. -/
theorem genCharGo_exhaust (env : Env) (cfg : Config) (order : List String)
    (edition : Nat) (rand : Nat → String → Nat) (now maxAttempts : Nat) :
    ∀ (fuel attempt : Nat) (reg : List String),
      (∀ i, attempt ≤ i → i < attempt + fuel →
        generateDnaHash
          (selectLayers env cfg.baseLayersDirectory order (rand i)) ∈ reg) →
      genCharGo env cfg order edition rand now maxAttempts attempt fuel reg
        = (Except.error (PyErr.valueError
            ("Could not generate a unique character after " ++
              toString maxAttempts ++ " attempts")), reg)
      ∧ genCharAttempts env cfg order rand attempt fuel reg = fuel := by
  intro fuel
  induction fuel with
  | zero => intro attempt reg _; exact ⟨rfl, rfl⟩
  | succ fuel ih =>
    intro attempt reg h
    have hd : generateDnaHash
        (selectLayers env cfg.baseLayersDirectory order (rand attempt)) ∈ reg :=
      h attempt (Nat.le_refl attempt) (by omega)
    have hrest := ih (attempt + 1) reg (fun i h1 h2 => h i (by omega) (by omega))
    constructor
    · rw [genCharGo, if_pos hd]
      exact hrest.1
    · rw [genCharAttempts, if_pos hd, hrest.2]
      omega

/-- C3 (amended): when every selection attempt collides, the edition
performs exactly `max_attempts` full re-selection attempts and fails
with the `ValueError` carrying the attempt count (the edition number is
not part of the error), leaving the registry unchanged. -/
theorem exhaustion_after_max_attempts (env : Env) (cfg : Config)
    (order : List String) (edition : Nat) (rand : Nat → String → Nat)
    (now maxAttempts : Nat) (reg : List String)
    (h : ∀ i, i < maxAttempts →
      generateDnaHash
        (selectLayers env cfg.baseLayersDirectory order (rand i)) ∈ reg) :
    generateCharacter env cfg order edition maxAttempts rand now reg
      = (Except.error (PyErr.valueError
          ("Could not generate a unique character after " ++
            toString maxAttempts ++ " attempts")), reg)
    ∧ generateCharacterAttempts env cfg order maxAttempts rand reg
        = maxAttempts := by
  rw [generateCharacter, generateCharacterAttempts]
  exact genCharGo_exhaust env cfg order edition rand now maxAttempts
    maxAttempts 0 reg (fun i h1 h2 => h i (by omega))

/-- Witness for C3's amended statement at a concrete input: the empty
layer order always reproduces the registered empty-selection DNA, so
two configured attempts are performed and the run fails with the
message naming 2 attempts. -/
theorem exhaustion_after_max_attempts_witness :
    generateCharacter trivEnv sampleCfg [] 1 2 (fun _ _ => 0) 0 [sha1Hex ""]
      = (Except.error (PyErr.valueError
          "Could not generate a unique character after 2 attempts"),
         [sha1Hex ""])
    ∧ generateCharacterAttempts trivEnv sampleCfg [] 2 (fun _ _ => 0)
        [sha1Hex ""] = 2 :=
  exhaustion_after_max_attempts trivEnv sampleCfg [] 1 (fun _ _ => 0) 0 2
    [sha1Hex ""] (fun _ _ => List.Mem.head _)

/-- Counterexample for C3 as stated: the exhaustion error raised for
edition 1 and the one raised for edition 2 are the very same value —
the `ValueError` carries the attempt count but not the edition
number. -/
theorem exhaustion_error_lacks_edition :
    (generateCharacter trivEnv sampleCfg [] 1 3 (fun _ _ => 0) 0
        [sha1Hex ""]).1
      = Except.error (PyErr.valueError
          "Could not generate a unique character after 3 attempts")
    ∧ (generateCharacter trivEnv sampleCfg [] 2 3 (fun _ _ => 0) 0
        [sha1Hex ""]).1
      = Except.error (PyErr.valueError
          "Could not generate a unique character after 3 attempts") := by
  constructor <;> rfl

/-! ### Collection-driver lemmas -/

theorem genCollGo_cons_ok (env : Env) (cfg : Config) (order : List String)
    (maxAttempts : Nat) (rand : Nat → Nat → String → Nat) (times : Nat → Nat)
    (e : Nat) (rest : List Nat) (reg reg' : List String) (m : Metadata)
    (h : generateCharacter env cfg order e maxAttempts (rand e) (times e) reg
      = (Except.ok m, reg')) :
    genCollGo env cfg order maxAttempts rand times (e :: rest) reg
      = (match genCollGo env cfg order maxAttempts rand times rest reg' with
         | (Except.ok ms, reg'') => (Except.ok (m :: ms), reg'')
         | (Except.error err, reg'') => (Except.error err, reg'')) := by
  rw [genCollGo, h]

theorem genCollGo_cons_valueError (env : Env) (cfg : Config)
    (order : List String) (maxAttempts : Nat) (rand : Nat → Nat → String → Nat)
    (times : Nat → Nat) (e : Nat) (rest : List Nat) (reg reg' : List String)
    (s : String)
    (h : generateCharacter env cfg order e maxAttempts (rand e) (times e) reg
      = (Except.error (PyErr.valueError s), reg')) :
    genCollGo env cfg order maxAttempts rand times (e :: rest) reg
      = (Except.ok [], reg') := by
  rw [genCollGo, h]

theorem genCollGo_cons_err (env : Env) (cfg : Config) (order : List String)
    (maxAttempts : Nat) (rand : Nat → Nat → String → Nat) (times : Nat → Nat)
    (e : Nat) (rest : List Nat) (reg reg' : List String) (err : PyErr)
    (h : generateCharacter env cfg order e maxAttempts (rand e) (times e) reg
      = (Except.error err, reg'))
    (hne : ∀ s, err ≠ PyErr.valueError s) :
    genCollGo env cfg order maxAttempts rand times (e :: rest) reg
      = (Except.error err, reg') := by
  cases err with
  | typeError => rw [genCollGo, h]
  | assetReadError p => rw [genCollGo, h]
  | indexError => rw [genCollGo, h]
  | valueError s => exact absurd rfl (hne s)

/-- Registry bookkeeping over a successful stretch of the collection
run: the final registry is exactly the returned metadata's DNAs (most
recent first) on top of the initial registry, every returned DNA is
fresh with respect to the initial registry, and the returned DNAs are
pairwise distinct. -/
theorem genCollGo_ok_registry (env : Env) (cfg : Config)
    (order : List String) (maxAttempts : Nat)
    (rand : Nat → Nat → String → Nat) (times : Nat → Nat) :
    ∀ (eds : List Nat) (reg : List String) (ms : List Metadata)
      (reg₂ : List String),
      genCollGo env cfg order maxAttempts rand times eds reg
        = (Except.ok ms, reg₂) →
      reg₂ = (ms.map (fun m => m.dna)).reverse ++ reg
      ∧ (∀ d ∈ ms.map (fun m => m.dna), d ∉ reg)
      ∧ (ms.map (fun m => m.dna)).Nodup := by
  intro eds
  induction eds with
  | nil =>
    intro reg ms reg₂ h
    rw [genCollGo] at h
    cases h
    exact ⟨by simp, by simp, by simp⟩
  | cons e rest ih =>
    intro reg ms reg₂ h
    cases hchar : generateCharacter env cfg order e maxAttempts (rand e)
        (times e) reg with
    | mk res reg' =>
      cases res with
      | ok m =>
        obtain ⟨hfresh, hreg'⟩ := genCharGo_ok_registry env cfg order e
          (rand e) (times e) maxAttempts maxAttempts 0 reg m reg'
          (by rw [generateCharacter] at hchar; exact hchar)
        rw [genCollGo_cons_ok env cfg order maxAttempts rand times e rest
          reg reg' m hchar] at h
        cases hrec : genCollGo env cfg order maxAttempts rand times rest
            reg' with
        | mk res₂ reg₂' =>
          rw [hrec] at h
          cases res₂ with
          | ok ms' =>
            have hms : ms = m :: ms' := by
              simpa using (congrArg Prod.fst h).symm
            have hr2 : reg₂ = reg₂' := by
              simpa using (congrArg Prod.snd h).symm
            subst hms
            subst hr2
            obtain ⟨ih1, ih2, ih3⟩ := ih _ _ _ hrec
            subst hreg'
            refine ⟨?_, ?_, ?_⟩
            · rw [ih1]
              simp
            · intro d hd
              rw [List.map_cons] at hd
              rcases List.mem_cons.mp hd with hdm | hdm
              · subst hdm; exact hfresh
              · intro hmem
                exact ih2 d hdm (List.mem_cons_of_mem _ hmem)
            · rw [List.map_cons, List.nodup_cons]
              exact ⟨fun hmem => ih2 m.dna hmem (List.Mem.head _), ih3⟩
          | error err => simp at h
      | error err =>
        cases err with
        | valueError s =>
          rw [genCollGo_cons_valueError env cfg order maxAttempts rand times
            e rest reg reg' s hchar] at h
          have hms : ms = [] := by
            simpa using (congrArg Prod.fst h).symm
          have hr2 : reg₂ = reg' := by
            simpa using (congrArg Prod.snd h).symm
          have hrr : reg' = reg := genCharGo_valueError_registry env cfg order
            e (rand e) (times e) maxAttempts maxAttempts 0 reg s reg'
            (by rw [generateCharacter] at hchar; exact hchar)
          subst hms
          rw [hr2, hrr]
          exact ⟨by simp, by simp, by simp⟩
        | typeError =>
          rw [genCollGo_cons_err env cfg order maxAttempts rand times e rest
            reg reg' _ hchar (by intro s h; cases h)] at h
          simp at h
        | assetReadError p =>
          rw [genCollGo_cons_err env cfg order maxAttempts rand times e rest
            reg reg' _ hchar (by intro s h; cases h)] at h
          simp at h
        | indexError =>
          rw [genCollGo_cons_err env cfg order maxAttempts rand times e rest
            reg reg' _ hchar (by intro s h; cases h)] at h
          simp at h

/-- C2: a run that returns `N` successfully generated editions (started
on the empty registry `generated_dnas = set()`) leaves the registry
with exactly those `N` pairwise-distinct DNA values; no two returned
records share a DNA, and the registry only ever grows (the registry
before any `generate_character` call is a suffix of the registry
after it). -/
theorem registry_uniqueness_invariant (env : Env) (cfg : Config)
    (order : List String) (maxAttempts : Nat)
    (rand : Nat → Nat → String → Nat) (times : Nat → Nat) (total : Nat)
    (ms : List Metadata) (fin : List String)
    (h : generateCollection env cfg order maxAttempts rand times total []
      = (Except.ok ms, fin)) :
    fin = (ms.map (fun m => m.dna)).reverse
    ∧ fin.length = ms.length
    ∧ fin.Nodup
    ∧ (ms.map (fun m => m.dna)).Nodup
    ∧ (∀ (edition maxA now : Nat) (r : Nat → String → Nat)
        (reg : List String),
        reg <:+ (generateCharacter env cfg order edition maxA r now reg).2) := by
  rw [generateCollection] at h
  obtain ⟨h1, _h2, h3⟩ := genCollGo_ok_registry env cfg order maxAttempts
    rand times (List.range' 1 total) [] ms fin h
  have hfin : fin = (ms.map (fun m => m.dna)).reverse := by simpa using h1
  refine ⟨hfin, ?_, ?_, h3, ?_⟩
  · rw [hfin]
    simp
  · rw [hfin]
    simpa using h3
  · intro edition maxA now r reg
    rw [generateCharacter]
    exact genCharGo_registry_suffix env cfg order edition r now maxA maxA 0 reg

/-- Witness for C2 at a concrete two-edition run over `sampleEnv`: the
final registry holds exactly the two distinct returned DNAs. -/
theorem registry_uniqueness_invariant_witness :
    (["d6b024c0ea21be833f71b92d7039174bba861ae0",
      "8c09dd586f9f8e77b5f8de6f519e3e1b6f5602b9"] : List String).Nodup :=
  (registry_uniqueness_invariant sampleEnv sampleCfg ["Background", "Body"] 3
    (fun e _ _ => e % 2) (fun _ => 7) 2
    [{ name := "Coll #1", description := "desc", image := "ipfs://x/1.gif",
       dna := "8c09dd586f9f8e77b5f8de6f519e3e1b6f5602b9", edition := 1,
       date := 7, attributes := [("Background", "anim"), ("Body", "b2")],
       compiler := "comp" },
     { name := "Coll #2", description := "desc", image := "ipfs://x/2.png",
       dna := "d6b024c0ea21be833f71b92d7039174bba861ae0", edition := 2,
       date := 7, attributes := [("Background", "bg"), ("Body", "b1")],
       compiler := "comp" }]
    ["d6b024c0ea21be833f71b92d7039174bba861ae0",
     "8c09dd586f9f8e77b5f8de6f519e3e1b6f5602b9"] (by rfl)).2.2.1

/-- The collection loop consults its randomness and clock oracles only
at the edition numbers it actually processes. -/
theorem genCollGo_congr (env : Env) (cfg : Config) (order : List String)
    (maxAttempts : Nat) (rand rand' : Nat → Nat → String → Nat)
    (times times' : Nat → Nat) :
    ∀ (eds : List Nat) (reg : List String),
      (∀ e ∈ eds, rand' e = rand e) → (∀ e ∈ eds, times' e = times e) →
      genCollGo env cfg order maxAttempts rand' times' eds reg
        = genCollGo env cfg order maxAttempts rand times eds reg := by
  intro eds
  induction eds with
  | nil => intro reg _ _; rfl
  | cons e rest ih =>
    intro reg hr ht
    have hre : rand' e = rand e := hr e (List.Mem.head _)
    have hte : times' e = times e := ht e (List.Mem.head _)
    cases hchar : generateCharacter env cfg order e maxAttempts (rand e)
        (times e) reg with
    | mk res reg' =>
      cases res with
      | ok m =>
        have hchar' : generateCharacter env cfg order e maxAttempts (rand' e)
            (times' e) reg = (Except.ok m, reg') := by
          rw [hre, hte]; exact hchar
        rw [genCollGo_cons_ok env cfg order maxAttempts rand' times' e rest
            reg reg' m hchar',
          genCollGo_cons_ok env cfg order maxAttempts rand times e rest
            reg reg' m hchar,
          ih reg' (fun x hx => hr x (List.mem_cons_of_mem _ hx))
            (fun x hx => ht x (List.mem_cons_of_mem _ hx))]
      | error err =>
        cases err with
        | valueError s =>
          have hchar' : generateCharacter env cfg order e maxAttempts
              (rand' e) (times' e) reg
              = (Except.error (PyErr.valueError s), reg') := by
            rw [hre, hte]; exact hchar
          rw [genCollGo_cons_valueError env cfg order maxAttempts rand' times'
              e rest reg reg' s hchar',
            genCollGo_cons_valueError env cfg order maxAttempts rand times
              e rest reg reg' s hchar]
        | typeError =>
          have hchar' : generateCharacter env cfg order e maxAttempts
              (rand' e) (times' e) reg
              = (Except.error PyErr.typeError, reg') := by
            rw [hre, hte]; exact hchar
          rw [genCollGo_cons_err env cfg order maxAttempts rand' times'
              e rest reg reg' _ hchar' (by intro s h; cases h),
            genCollGo_cons_err env cfg order maxAttempts rand times
              e rest reg reg' _ hchar (by intro s h; cases h)]
        | assetReadError p =>
          have hchar' : generateCharacter env cfg order e maxAttempts
              (rand' e) (times' e) reg
              = (Except.error (PyErr.assetReadError p), reg') := by
            rw [hre, hte]; exact hchar
          rw [genCollGo_cons_err env cfg order maxAttempts rand' times'
              e rest reg reg' _ hchar' (by intro s h; cases h),
            genCollGo_cons_err env cfg order maxAttempts rand times
              e rest reg reg' _ hchar (by intro s h; cases h)]
        | indexError =>
          have hchar' : generateCharacter env cfg order e maxAttempts
              (rand' e) (times' e) reg
              = (Except.error PyErr.indexError, reg') := by
            rw [hre, hte]; exact hchar
          rw [genCollGo_cons_err env cfg order maxAttempts rand' times'
              e rest reg reg' _ hchar' (by intro s h; cases h),
            genCollGo_cons_err env cfg order maxAttempts rand times
              e rest reg reg' _ hchar (by intro s h; cases h)]

/-- If a prefix of editions all succeed and the next edition raises the
exhaustion `ValueError`, the whole run returns exactly the prefix's
metadata (and the registry at the failure), no matter what editions
follow. -/
theorem genCollGo_stop (env : Env) (cfg : Config) (order : List String)
    (maxAttempts : Nat) (rand : Nat → Nat → String → Nat)
    (times : Nat → Nat) :
    ∀ (pre : List Nat) (k : Nat) (post : List Nat) (reg reg₁ reg₂ : List String)
      (ms : List Metadata) (msg : String),
      genCollGo env cfg order maxAttempts rand times pre reg
        = (Except.ok ms, reg₁) →
      ms.length = pre.length →
      generateCharacter env cfg order k maxAttempts (rand k) (times k) reg₁
        = (Except.error (PyErr.valueError msg), reg₂) →
      genCollGo env cfg order maxAttempts rand times (pre ++ k :: post) reg
        = (Except.ok ms, reg₂) := by
  intro pre
  induction pre with
  | nil =>
    intro k post reg reg₁ reg₂ ms msg hpre hlen hk
    rw [genCollGo] at hpre
    have hms : ms = [] := by simpa using (congrArg Prod.fst hpre).symm
    have hr1 : reg₁ = reg := by simpa using (congrArg Prod.snd hpre).symm
    subst hms
    subst hr1
    rw [List.nil_append]
    exact genCollGo_cons_valueError env cfg order maxAttempts rand times
      k post reg₁ reg₂ msg hk
  | cons e pre' ih =>
    intro k post reg reg₁ reg₂ ms msg hpre hlen hk
    cases hchar : generateCharacter env cfg order e maxAttempts (rand e)
        (times e) reg with
    | mk res reg' =>
      cases res with
      | ok m =>
        rw [genCollGo_cons_ok env cfg order maxAttempts rand times e pre'
          reg reg' m hchar] at hpre
        cases hrec : genCollGo env cfg order maxAttempts rand times pre'
            reg' with
        | mk res₂ reg₁' =>
          rw [hrec] at hpre
          cases res₂ with
          | ok ms' =>
            have hms : ms = m :: ms' := by
              simpa using (congrArg Prod.fst hpre).symm
            have hr1 : reg₁ = reg₁' := by
              simpa using (congrArg Prod.snd hpre).symm
            subst hms
            have hlen' : ms'.length = pre'.length := by
              simpa using hlen
            rw [List.cons_append,
              genCollGo_cons_ok env cfg order maxAttempts rand times e
                (pre' ++ k :: post) reg reg' m hchar,
              ih k post reg' reg₁' reg₂ ms' msg hrec hlen' (hr1 ▸ hk)]
          | error err => simp at hpre
      | error err =>
        cases err with
        | valueError s =>
          rw [genCollGo_cons_valueError env cfg order maxAttempts rand times
            e pre' reg reg' s hchar] at hpre
          have hms : ms = [] := by
            simpa using (congrArg Prod.fst hpre).symm
          rw [hms] at hlen
          simp at hlen
        | typeError =>
          rw [genCollGo_cons_err env cfg order maxAttempts rand times e pre'
            reg reg' _ hchar (by intro s h; cases h)] at hpre
          simp at hpre
        | assetReadError p =>
          rw [genCollGo_cons_err env cfg order maxAttempts rand times e pre'
            reg reg' _ hchar (by intro s h; cases h)] at hpre
          simp at hpre
        | indexError =>
          rw [genCollGo_cons_err env cfg order maxAttempts rand times e pre'
            reg reg' _ hchar (by intro s h; cases h)] at hpre
          simp at hpre

/-- C4: when the assembler raises the exhaustion `ValueError` at
edition `k` (after editions `1..k-1` succeeded), the collection run
stops: it returns exactly the metadata of editions `1..k-1`, and the
later editions are never attempted — the result is unchanged under any
replacement of the randomness/clock oracles at editions beyond `k`. -/
theorem collection_fail_fast (env : Env) (cfg : Config)
    (order : List String) (maxAttempts : Nat)
    (rand : Nat → Nat → String → Nat) (times : Nat → Nat) (total k : Nat)
    (post : List Nat) (ms : List Metadata) (reg₁ reg₂ : List String)
    (msg : String)
    (hsplit : List.range' 1 total = List.range' 1 (k - 1) ++ k :: post)
    (hpre : genCollGo env cfg order maxAttempts rand times
      (List.range' 1 (k - 1)) [] = (Except.ok ms, reg₁))
    (hlen : ms.length = k - 1)
    (hk : generateCharacter env cfg order k maxAttempts (rand k) (times k)
      reg₁ = (Except.error (PyErr.valueError msg), reg₂)) :
    generateCollection env cfg order maxAttempts rand times total []
      = (Except.ok ms, reg₂)
    ∧ (∀ (rand' : Nat → Nat → String → Nat) (times' : Nat → Nat),
        (∀ j, j ≤ k → rand' j = rand j) → (∀ j, j ≤ k → times' j = times j) →
        generateCollection env cfg order maxAttempts rand' times' total []
          = (Except.ok ms, reg₂)) := by
  have hlen' : ms.length = (List.range' 1 (k - 1)).length := by
    simpa using hlen
  constructor
  · rw [generateCollection, hsplit]
    exact genCollGo_stop env cfg order maxAttempts rand times
      (List.range' 1 (k - 1)) k post [] reg₁ reg₂ ms msg hpre hlen' hk
  · intro rand' times' hr ht
    have hmem : ∀ e ∈ List.range' 1 (k - 1), e ≤ k := by
      intro e he
      have := List.mem_range'_1.mp he
      omega
    have hpre' : genCollGo env cfg order maxAttempts rand' times'
        (List.range' 1 (k - 1)) [] = (Except.ok ms, reg₁) := by
      rw [genCollGo_congr env cfg order maxAttempts rand rand' times times'
        (List.range' 1 (k - 1)) [] (fun e he => hr e (hmem e he))
        (fun e he => ht e (hmem e he))]
      exact hpre
    have hk' : generateCharacter env cfg order k maxAttempts (rand' k)
        (times' k) reg₁ = (Except.error (PyErr.valueError msg), reg₂) := by
      rw [hr k (Nat.le_refl k), ht k (Nat.le_refl k)]
      exact hk
    rw [generateCollection, hsplit]
    exact genCollGo_stop env cfg order maxAttempts rand' times'
      (List.range' 1 (k - 1)) k post [] reg₁ reg₂ ms msg hpre' hlen' hk'

/-- Witness for C4 at a concrete run over the single-combination
catalog: three requested editions, edition 2 exhausts its 2 attempts,
and the run returns exactly edition 1's metadata. -/
theorem collection_fail_fast_witness :
    generateCollection soloEnv sampleCfg ["Background", "Body"] 2
      (fun _ _ _ => 0) (fun _ => 7) 3 []
      = (Except.ok
          [{ name := "Coll #1", description := "desc",
             image := "ipfs://x/1.png",
             dna := "b974ae3a6a6c003c8fb4f0bdaa08859aee6c4213", edition := 1,
             date := 7, attributes := [("Background", "bg"), ("Body", "b")],
             compiler := "comp" }],
         ["b974ae3a6a6c003c8fb4f0bdaa08859aee6c4213"]) :=
  (collection_fail_fast soloEnv sampleCfg ["Background", "Body"] 2
    (fun _ _ _ => 0) (fun _ => 7) 3 2 [3]
    [{ name := "Coll #1", description := "desc", image := "ipfs://x/1.png",
       dna := "b974ae3a6a6c003c8fb4f0bdaa08859aee6c4213", edition := 1,
       date := 7, attributes := [("Background", "bg"), ("Body", "b")],
       compiler := "comp" }]
    ["b974ae3a6a6c003c8fb4f0bdaa08859aee6c4213"]
    ["b974ae3a6a6c003c8fb4f0bdaa08859aee6c4213"]
    "Could not generate a unique character after 2 attempts"
    (by rfl) (by rfl) (by rfl) (by rfl)).1

/-! ### Animated-compositing theorems -/

/-- C6: a successful animated compositing run emits exactly one output
frame per background frame, and every output frame is the same overlay
list (the opened static non-background layers, in selection order)
pasted, in that order, onto its background frame. -/
theorem gif_one_frame_per_background_frame (env : Env) (cfg : Config)
    (selected : Layers) (edition : Nat) (bg : LayerFile) (asset : ImageAsset)
    (p : String) (g : SavedGif)
    (hbg : dictGet selected "Background" = some bg)
    (hopen : env.openImage bg.path = some asset)
    (hrun : generateGifCharacter env cfg selected edition
      = Except.ok (p, SavedImage.gif g)) :
    g.frames.length = asset.frameSizes.length
    ∧ ∃ statics, gifStaticLayers env selected = Except.ok statics
        ∧ g.frames = (List.range asset.frameSizes.length).map (fun i =>
            compositeFrame (statics.map Prod.snd)
              (Img.paste (Img.new (asset.frameSizes.getD i (0, 0)).1
                 (asset.frameSizes.getD i (0, 0)).2)
               (Img.convert (Img.asset bg.path i)))) := by
  simp only [generateGifCharacter, hbg, hopen] at hrun
  cases hst : gifStaticLayers env selected with
  | error e => rw [hst] at hrun; cases hrun
  | ok statics =>
    simp only [hst] at hrun
    cases hfr : (List.range asset.frameSizes.length).map (fun i =>
        compositeFrame (statics.map Prod.snd)
          (Img.paste (Img.new (asset.frameSizes.getD i (0, 0)).1
            (asset.frameSizes.getD i (0, 0)).2)
            (Img.convert (Img.asset bg.path i)))) with
    | nil => rw [hfr] at hrun; cases hrun
    | cons f0 rest =>
      rw [hfr] at hrun
      cases hrun
      refine ⟨?_, statics, rfl, hfr.symm⟩
      rw [show (SavedGif.mk (f0 :: rest)
          (asset.durations.getLast?.getD 100) 0).frames = f0 :: rest from rfl,
        hfr.symm]
      simp

/-- Witness for C6 at the spec's example: a five-frame animated
background with two static overlays yields exactly five output
frames. -/
theorem gif_one_frame_per_background_frame_witness :
    (gifOf (generateGifCharacter gif5Env sampleCfg
      (selectLayers gif5Env "L" ["Background", "Body", "Eyes"] (fun _ => 0))
      1)).frames.length = 5 :=
  (gif_one_frame_per_background_frame gif5Env sampleCfg
    (selectLayers gif5Env "L" ["Background", "Body", "Eyes"] (fun _ => 0)) 1
    ⟨"L/Background/anim.gif", "gif", "anim.gif"⟩
    ⟨[(4, 4), (4, 4), (4, 4), (4, 4), (4, 4)], [100, 200, 300, 400, 500],
      some 5⟩
    (imagesPath sampleCfg 1 "gif")
    (gifOf (generateGifCharacter gif5Env sampleCfg
      (selectLayers gif5Env "L" ["Background", "Body", "Eyes"] (fun _ => 0))
      1))
    (by rfl) (by rfl) (by rfl)).1.trans (by rfl)

/-- C7 (amended): the animated path does not preserve per-frame timing
or loop metadata — the artifact is saved with one single duration for
all frames, read from the background file object's info after the
frame iteration (the last frame's value, `100` when absent), and with
hard-coded `loop = 0` regardless of the background's loop count. -/
theorem gif_single_duration_loop_zero (env : Env) (cfg : Config)
    (selected : Layers) (edition : Nat) (bg : LayerFile) (asset : ImageAsset)
    (p : String) (g : SavedGif)
    (hbg : dictGet selected "Background" = some bg)
    (hopen : env.openImage bg.path = some asset)
    (hrun : generateGifCharacter env cfg selected edition
      = Except.ok (p, SavedImage.gif g)) :
    g.duration = asset.durations.getLast?.getD 100 ∧ g.loop = 0 := by
  simp only [generateGifCharacter, hbg, hopen] at hrun
  cases hst : gifStaticLayers env selected with
  | error e => rw [hst] at hrun; cases hrun
  | ok statics =>
    simp only [hst] at hrun
    cases hfr : (List.range asset.frameSizes.length).map (fun i =>
        compositeFrame (statics.map Prod.snd)
          (Img.paste (Img.new (asset.frameSizes.getD i (0, 0)).1
            (asset.frameSizes.getD i (0, 0)).2)
            (Img.convert (Img.asset bg.path i)))) with
    | nil => rw [hfr] at hrun; cases hrun
    | cons f0 rest =>
      rw [hfr] at hrun
      cases hrun
      exact ⟨rfl, rfl⟩

/-- Witness for C7's amended statement: the five-frame background with
per-frame durations `[100, 200, 300, 400, 500]` is saved with the
single duration `500` and `loop = 0`. -/
theorem gif_single_duration_loop_zero_witness :
    (gifOf (generateGifCharacter gif5Env sampleCfg
      (selectLayers gif5Env "L" ["Background", "Body", "Eyes"] (fun _ => 0))
      1)).duration = 500
    ∧ (gifOf (generateGifCharacter gif5Env sampleCfg
      (selectLayers gif5Env "L" ["Background", "Body", "Eyes"] (fun _ => 0))
      1)).loop = 0 :=
  ⟨((gif_single_duration_loop_zero gif5Env sampleCfg
      (selectLayers gif5Env "L" ["Background", "Body", "Eyes"] (fun _ => 0)) 1
      ⟨"L/Background/anim.gif", "gif", "anim.gif"⟩
      ⟨[(4, 4), (4, 4), (4, 4), (4, 4), (4, 4)], [100, 200, 300, 400, 500],
        some 5⟩
      (imagesPath sampleCfg 1 "gif")
      (gifOf (generateGifCharacter gif5Env sampleCfg
        (selectLayers gif5Env "L" ["Background", "Body", "Eyes"]
          (fun _ => 0)) 1))
      (by rfl) (by rfl) (by rfl)).1).trans (by rfl),
   (gif_single_duration_loop_zero gif5Env sampleCfg
      (selectLayers gif5Env "L" ["Background", "Body", "Eyes"] (fun _ => 0)) 1
      ⟨"L/Background/anim.gif", "gif", "anim.gif"⟩
      ⟨[(4, 4), (4, 4), (4, 4), (4, 4), (4, 4)], [100, 200, 300, 400, 500],
        some 5⟩
      (imagesPath sampleCfg 1 "gif")
      (gifOf (generateGifCharacter gif5Env sampleCfg
        (selectLayers gif5Env "L" ["Background", "Body", "Eyes"]
          (fun _ => 0)) 1))
      (by rfl) (by rfl) (by rfl)).2⟩

/-- Counterexample for C7 as stated: the background GIF carries
per-frame durations `[100, 200, 300, 400, 500]` and loop count `5`,
yet the artifact is saved with the single duration `500` for every
frame (so frame 0 does not keep its source duration `100`) and
`loop = 0` (indefinite) although the background specifies `5`. -/
theorem gif_metadata_not_preserved :
    gif5Env.openImage "L/Background/anim.gif"
      = some ⟨[(4, 4), (4, 4), (4, 4), (4, 4), (4, 4)],
              [100, 200, 300, 400, 500], some 5⟩
    ∧ (gifOf (generateGifCharacter gif5Env sampleCfg
        (selectLayers gif5Env "L" ["Background", "Body", "Eyes"]
          (fun _ => 0)) 1)).duration = 500
    ∧ (gifOf (generateGifCharacter gif5Env sampleCfg
        (selectLayers gif5Env "L" ["Background", "Body", "Eyes"]
          (fun _ => 0)) 1)).duration ≠ 100
    ∧ (gifOf (generateGifCharacter gif5Env sampleCfg
        (selectLayers gif5Env "L" ["Background", "Body", "Eyes"]
          (fun _ => 0)) 1)).loop = 0
    ∧ (gifOf (generateGifCharacter gif5Env sampleCfg
        (selectLayers gif5Env "L" ["Background", "Body", "Eyes"]
          (fun _ => 0)) 1)).loop ≠ 5 :=
  ⟨rfl, rfl, by decide, rfl, by decide⟩

/-! ### DNA order-(in)dependence -/

/-- Counterexample for C1 as stated: two selected-layer dictionaries
that are permutations of each other with identical
layer-name-to-file-path mappings hash to different DNAs —
`_generate_dna_hash` depends on the dictionary's iteration order, not
only on the mapping. -/
theorem dna_hash_order_dependent :
    List.Perm
      ([("A", ⟨"pa", "png", "a.png"⟩), ("B", ⟨"pb", "png", "b.png"⟩)] : Layers)
      ([("B", ⟨"pb", "png", "b.png"⟩), ("A", ⟨"pa", "png", "a.png"⟩)] : Layers)
    ∧ dictGet
        ([("A", ⟨"pa", "png", "a.png"⟩), ("B", ⟨"pb", "png", "b.png"⟩)] :
          Layers) "A"
      = dictGet
        ([("B", ⟨"pb", "png", "b.png"⟩), ("A", ⟨"pa", "png", "a.png"⟩)] :
          Layers) "A"
    ∧ dictGet
        ([("A", ⟨"pa", "png", "a.png"⟩), ("B", ⟨"pb", "png", "b.png"⟩)] :
          Layers) "B"
      = dictGet
        ([("B", ⟨"pb", "png", "b.png"⟩), ("A", ⟨"pa", "png", "a.png"⟩)] :
          Layers) "B"
    ∧ generateDnaHash
        ([("A", ⟨"pa", "png", "a.png"⟩), ("B", ⟨"pb", "png", "b.png"⟩)] :
          Layers)
      ≠ generateDnaHash
        ([("B", ⟨"pb", "png", "b.png"⟩), ("A", ⟨"pa", "png", "a.png"⟩)] :
          Layers) :=
  ⟨List.Perm.swap _ _ _, rfl, rfl, by decide⟩

/-- C1 (amended): the DNA hash is a function of the dictionary's
iteration order, so a permutation of the internal storage order can
change it; however, the selection loop inserts layers in the
configured order, so any two selections built over the same
duplicate-free configured layer order whose layer-name-to-file-path
mappings agree receive identical DNAs. -/
theorem dna_canonical_over_fixed_order (env₁ env₂ : Env)
    (base₁ base₂ : String) (r₁ r₂ : String → Nat) (order : List String)
    (hnd : order.Nodup)
    (hmap : ∀ l,
      (dictGet (selectLayers env₁ base₁ order r₁) l).map (fun f => f.path)
        = (dictGet (selectLayers env₂ base₂ order r₂) l).map
            (fun f => f.path)) :
    generateDnaHash (selectLayers env₁ base₁ order r₁)
      = generateDnaHash (selectLayers env₂ base₂ order r₂) := by
  have key : ∀ l ∈ order,
      (selectLayerFile env₁ base₁ l (r₁ l)).map (fun f => f.path)
        = (selectLayerFile env₂ base₂ l (r₂ l)).map (fun f => f.path) := by
    intro l hl
    have h1 := dictGet_selectLayers env₁ base₁ r₁ order l hnd
    have h2 := dictGet_selectLayers env₂ base₂ r₂ order l hnd
    rw [if_pos hl] at h1 h2
    rw [← h1, ← h2]
    exact hmap l
  have hproj :
      (selectLayers env₁ base₁ order r₁).map (fun kv => (kv.1, kv.2.path))
        = (selectLayers env₂ base₂ order r₂).map
            (fun kv => (kv.1, kv.2.path)) := by
    rw [selectLayers_eq_filterMap env₁ base₁ r₁ order hnd,
      selectLayers_eq_filterMap env₂ base₂ r₂ order hnd,
      List.map_filterMap, List.map_filterMap]
    apply List.filterMap_congr
    intro l hl
    have hkey := key l hl
    cases hs1 : selectLayerFile env₁ base₁ l (r₁ l) with
    | none =>
      rw [hs1] at hkey
      cases hs2 : selectLayerFile env₂ base₂ l (r₂ l) with
      | none => rfl
      | some f2 => rw [hs2] at hkey; cases hkey
    | some f1 =>
      rw [hs1] at hkey
      cases hs2 : selectLayerFile env₂ base₂ l (r₂ l) with
      | none => rw [hs2] at hkey; cases hkey
      | some f2 =>
        rw [hs2] at hkey
        have hp : f1.path = f2.path := by
          simpa using hkey
        simp [hp]
  have hstr : dnaString (selectLayers env₁ base₁ order r₁)
      = dnaString (selectLayers env₂ base₂ order r₂) := by
    rw [dnaString, dnaString]
    have e1 : ∀ (S : Layers),
        S.map (fun kv => kv.1 ++ ":" ++ kv.2.path)
          = (S.map (fun kv => (kv.1, kv.2.path))).map
              (fun q => q.1 ++ ":" ++ q.2) := by
      intro S
      rw [List.map_map]
      rfl
    rw [e1, e1, hproj]
  rw [generateDnaHash, generateDnaHash, hstr]

/-- Witness for C1's amended statement at a concrete input: two
selection passes over the single-file catalog with different random
draws produce the same mapping, hence the same DNA. -/
theorem dna_canonical_over_fixed_order_witness :
    generateDnaHash
        (selectLayers soloEnv "L" ["Background", "Body"] (fun _ => 0))
      = generateDnaHash
        (selectLayers soloEnv "L" ["Background", "Body"] (fun _ => 1)) :=
  dna_canonical_over_fixed_order soloEnv soloEnv "L" "L" (fun _ => 0)
    (fun _ => 1) ["Background", "Body"] (by decide) (fun _ => rfl)

end NftGen
